import Mathlib

/-!
Verification development for the mysql-mcp-server caching and staleness
subsystem (`schema/cache.py`, `schema/generator.py`, `utils/helpers.py`).

The Python source is shallowly embedded: pure helpers become Lean functions,
the module-level caches and the schema file become an explicit state record
threaded through the operations, the database collaborator (`pymysql` via
`get_db_connection`) becomes a `World` record of query responses, and time
(`datetime.now`, cachetools timers) becomes an explicit `Nat` clock.
Fallible Python code (raising exceptions) is embedded with `Except`.
-/

namespace MySqlMcp

/-! ## Association-list maps with Python `dict` semantics

Python dicts preserve insertion order; assignment to an existing key updates
the value in place, assignment to a fresh key appends.  These helpers embed
that behaviour over `List (String × α)`. -/

def dictInsert {α : Type} : List (String × α) → String → α → List (String × α)
  | [], k, v => [(k, v)]
  | (k', v') :: rest, k, v =>
    if k' = k then (k, v) :: rest else (k', v') :: dictInsert rest k v

def dictLookup {α : Type} : List (String × α) → String → Option α
  | [], _ => none
  | (k', v) :: rest, k => if k' = k then some v else dictLookup rest k

def dictRemove {α : Type} : List (String × α) → String → List (String × α)
  | [], _ => []
  | (k', v) :: rest, k =>
    if k' = k then dictRemove rest k else (k', v) :: dictRemove rest k

def dictKeys {α : Type} (l : List (String × α)) : List String := l.map Prod.fst

/-! ## Python substring test (`sub in s`) -/

def containsSubList : List Char → List Char → Bool
  | _, [] => true
  | [], _ :: _ => false
  | c :: rest, p :: ps => (p :: ps).isPrefixOf (c :: rest) || containsSubList rest (p :: ps)

/-- Embedding of Python's `pat in s` substring containment on strings. -/
def strContainsSub (s pat : String) : Bool := containsSubList s.data pat.data

/-! ## MD5 (`hashlib.md5(text.encode()).hexdigest()`)

A faithful implementation of RFC 1321 MD5 over `Nat` with explicit `% 2^32`
reductions, together with UTF-8 encoding of the input string, so that
`create_hash` from `utils/helpers.py` is embedded exactly. -/

def M32 : Nat := 4294967296

/-- Bitwise complement on 32 bits. -/
def mnot (x : Nat) : Nat := Nat.xor x (M32 - 1)

/-- Left rotation on 32 bits (input assumed `< 2^32`). -/
def rotl (x s : Nat) : Nat := (x * 2 ^ s) % M32 + x / 2 ^ (32 - s)

def md5K : List Nat :=
  [0xd76aa478, 0xe8c7b756, 0x242070db, 0xc1bdceee,
   0xf57c0faf, 0x4787c62a, 0xa8304613, 0xfd469501,
   0x698098d8, 0x8b44f7af, 0xffff5bb1, 0x895cd7be,
   0x6b901122, 0xfd987193, 0xa679438e, 0x49b40821,
   0xf61e2562, 0xc040b340, 0x265e5a51, 0xe9b6c7aa,
   0xd62f105d, 0x02441453, 0xd8a1e681, 0xe7d3fbc8,
   0x21e1cde6, 0xc33707d6, 0xf4d50d87, 0x455a14ed,
   0xa9e3e905, 0xfcefa3f8, 0x676f02d9, 0x8d2a4c8a,
   0xfffa3942, 0x8771f681, 0x6d9d6122, 0xfde5380c,
   0xa4beea44, 0x4bdecfa9, 0xf6bb4b60, 0xbebfbc70,
   0x289b7ec6, 0xeaa127fa, 0xd4ef3085, 0x04881d05,
   0xd9d4d039, 0xe6db99e5, 0x1fa27cf8, 0xc4ac5665,
   0xf4292244, 0x432aff97, 0xab9423a7, 0xfc93a039,
   0x655b59c3, 0x8f0ccc92, 0xffeff47d, 0x85845dd1,
   0x6fa87e4f, 0xfe2ce6e0, 0xa3014314, 0x4e0811a1,
   0xf7537e82, 0xbd3af235, 0x2ad7d2bb, 0xeb86d391]

def md5S : List Nat :=
  [7, 12, 17, 22, 7, 12, 17, 22, 7, 12, 17, 22, 7, 12, 17, 22,
   5, 9, 14, 20, 5, 9, 14, 20, 5, 9, 14, 20, 5, 9, 14, 20,
   4, 11, 16, 23, 4, 11, 16, 23, 4, 11, 16, 23, 4, 11, 16, 23,
   6, 10, 15, 21, 6, 10, 15, 21, 6, 10, 15, 21, 6, 10, 15, 21]

/-- Message-word index for MD5 step `i`. -/
def md5G (i : Nat) : Nat :=
  if i < 16 then i
  else if i < 32 then (5 * i + 1) % 16
  else if i < 48 then (3 * i + 5) % 16
  else (7 * i) % 16

/-- Round function for MD5 step `i`. -/
def md5Mix (i b c d : Nat) : Nat :=
  if i < 16 then Nat.lor (Nat.land b c) (Nat.land (mnot b) d)
  else if i < 32 then Nat.lor (Nat.land d b) (Nat.land (mnot d) c)
  else if i < 48 then Nat.xor b (Nat.xor c d)
  else Nat.xor c (Nat.lor b (mnot d))

def md5Step (M : List Nat) (st : Nat × Nat × Nat × Nat) (i : Nat) : Nat × Nat × Nat × Nat :=
  match st with
  | (a, b, c, d) =>
    let f := (a + md5Mix i b c d + md5K.getD i 0 + M.getD (md5G i) 0) % M32
    (d, (b + rotl f (md5S.getD i 0)) % M32, b, c)

def md5Block (st : Nat × Nat × Nat × Nat) (M : List Nat) : Nat × Nat × Nat × Nat :=
  match st, (List.range 64).foldl (md5Step M) st with
  | (a0, b0, c0, d0), (a, b, c, d) =>
    ((a0 + a) % M32, (b0 + b) % M32, (c0 + c) % M32, (d0 + d) % M32)

/-- Little-endian packing of bytes into 32-bit words. -/
def bytesToWords : List Nat → List Nat
  | b0 :: b1 :: b2 :: b3 :: rest =>
    (b0 + 256 * b1 + 65536 * b2 + 16777216 * b3) :: bytesToWords rest
  | _ => []

def chunks64Aux : Nat → List Nat → List (List Nat)
  | 0, _ => []
  | _, [] => []
  | fuel + 1, b :: rest => ((b :: rest).take 64) :: chunks64Aux fuel ((b :: rest).drop 64)

/-- Split a byte list into 64-byte blocks (structural recursion on a fuel
bound so the kernel can evaluate it). -/
def chunks64 (l : List Nat) : List (List Nat) := chunks64Aux l.length l

/-- RFC 1321 padding: `0x80`, zeros to 56 mod 64, then the 64-bit
little-endian bit length. -/
def md5Pad (msg : List Nat) : List Nat :=
  let L := msg.length
  let zeros := (120 - (L + 1) % 64) % 64
  msg ++ [128] ++ List.replicate zeros 0 ++
    (List.range 8).map (fun i => 8 * L / 2 ^ (8 * i) % 256)

def hexDigit (n : Nat) : Char := Char.ofNat (if n < 10 then 48 + n else 87 + n)

/-- Hex rendering of one 32-bit word, little-endian byte order. -/
def wordLEHex (w : Nat) : String :=
  String.mk ((List.range 4).flatMap (fun i =>
    let byte := w / 2 ^ (8 * i) % 256
    [hexDigit (byte / 16), hexDigit (byte % 16)]))

def md5hex (msg : List Nat) : String :=
  match (chunks64 (md5Pad msg) |>.map bytesToWords).foldl md5Block
      (0x67452301, 0xefcdab89, 0x98badcfe, 0x10325476) with
  | (a, b, c, d) => wordLEHex a ++ wordLEHex b ++ wordLEHex c ++ wordLEHex d

/-- UTF-8 encoding of one character (Python `str.encode()`). -/
def utf8Char (c : Char) : List Nat :=
  let n := c.toNat
  if n < 128 then [n]
  else if n < 2048 then [192 + n / 64, 128 + n % 64]
  else if n < 65536 then [224 + n / 4096, 128 + n / 64 % 64, 128 + n % 64]
  else [240 + n / 262144, 128 + n / 4096 % 64, 128 + n / 64 % 64, 128 + n % 64]

def utf8Bytes (s : String) : List Nat := s.data.flatMap utf8Char

/-- Embedding of `utils/helpers.py::create_hash`:
`hashlib.md5(text.encode()).hexdigest()`. -/
def create_hash (text : String) : String := md5hex (utf8Bytes text)

/-! ## JSON values

The schema document and query results are Python dicts/lists serialized
with `json.dumps(..., default=str)`.  We model JSON values structurally and
give a concrete serializer standing for `json.dumps` (whitespace and string
escaping are abstracted; no claim depends on them). -/

inductive Json : Type where
  | null : Json
  | bool : Bool → Json
  | num : Int → Json
  | str : String → Json
  | arr : List Json → Json
  | obj : List (String × Json) → Json

instance : Inhabited Json := ⟨Json.null⟩

mutual

def Json.dump : Json → String
  | .null => "null"
  | .bool true => "true"
  | .bool false => "false"
  | .num n => toString n
  | .str s => "\"" ++ s ++ "\""
  | .arr xs => "[" ++ Json.dumpList xs ++ "]"
  | .obj fields => "\x7b" ++ Json.dumpFields fields ++ "\x7d"

def Json.dumpList : List Json → String
  | [] => ""
  | [x] => Json.dump x
  | x :: y :: rest => Json.dump x ++ ", " ++ Json.dumpList (y :: rest)

def Json.dumpFields : List (String × Json) → String
  | [] => ""
  | [(k, v)] => "\"" ++ k ++ "\": " ++ Json.dump v
  | (k, v) :: p :: rest =>
    "\"" ++ k ++ "\": " ++ Json.dump v ++ ", " ++ Json.dumpFields (p :: rest)

end

/-- Field access on a JSON object (`d.get(key)`), `none` when the value is
not an object or the key is absent. -/
def jget : Json → String → Option Json
  | .obj fields, k => dictLookup fields k
  | _, _ => none

/-! ## Errors

Python exception values relevant to the embedded code: `ValueError` (the
validation failures), database/driver errors from the collaborator, and
generic wrapped exceptions. -/

inductive Err : Type where
  | validation : String → Err
  | dbErr : String → Err
  | generic : String → Err
deriving DecidableEq, Repr

deriving instance DecidableEq for Except

def Err.msg : Err → String
  | .validation m => m
  | .dbErr m => m
  | .generic m => m

/-! ## Schema generator (`schema/generator.py`)

`generate_database_schema` runs a fixed sequence of metadata queries against
the database collaborator.  The collaborator is embedded as `GenDb`, a record
of responses (each `Except`-valued: the driver may raise).  Time is embedded
as a tick counter: each `cursor.execute` and the one `datetime.now` call
consume successive ticks, and the function returns the trace of executed
fetches with their ticks. -/

structure FKRow where
  COLUMN_NAME : String
  REFERENCED_TABLE_NAME : String
  REFERENCED_COLUMN_NAME : String
  CONSTRAINT_NAME : String
deriving DecidableEq, Repr

/-- An entry of `relationships.referenced_by`. -/
structure RefBy where
  table : String
  column : String
  constraint : String
deriving DecidableEq, Repr

structure TableEntry where
  table_info : Json
  columns : List Json
  indexes : List Json
  foreign_keys : List FKRow
  sample_data : List Json
  references : List FKRow
  referenced_by : List RefBy
deriving Inhabited

structure SchemaMetadata where
  database_name : String
  generated_at : Nat
  version : String
  total_tables : Nat
deriving Inhabited

structure SchemaDoc where
  metadata : SchemaMetadata
  tables : List (String × TableEntry)
deriving Inhabited

/-- Database collaborator responses consumed by the generator. -/
structure GenDb where
  database_name : Except Err String
  show_tables : Except Err (List String)
  table_info : String → Except Err Json
  describe : String → Except Err (List Json)
  show_index : String → Except Err (List Json)
  foreign_keys : String → Except Err (List FKRow)
  sample_rows : String → Except Err (List Json)

/-- The five per-table metadata fetches for one table (source lines 41-89 of
`schema/generator.py`), in source order, stopping at the first failure.
Returns the entry, the executed-fetch trace with ticks, and the next tick. -/
def fetchTable (db : GenDb) (name : String) (t : Nat) :
    Except Err TableEntry × List (String × Nat) × Nat :=
  match db.table_info name with
  | .error e => (.error e, [("table_info:" ++ name, t)], t + 1)
  | .ok ti =>
    match db.describe name with
    | .error e => (.error e, [("table_info:" ++ name, t), ("describe:" ++ name, t + 1)], t + 2)
    | .ok cols =>
      match db.show_index name with
      | .error e =>
        (.error e,
         [("table_info:" ++ name, t), ("describe:" ++ name, t + 1),
          ("show_index:" ++ name, t + 2)], t + 3)
      | .ok idx =>
        match db.foreign_keys name with
        | .error e =>
          (.error e,
           [("table_info:" ++ name, t), ("describe:" ++ name, t + 1),
            ("show_index:" ++ name, t + 2), ("foreign_keys:" ++ name, t + 3)], t + 4)
        | .ok fks =>
          match db.sample_rows name with
          | .error e =>
            (.error e,
             [("table_info:" ++ name, t), ("describe:" ++ name, t + 1),
              ("show_index:" ++ name, t + 2), ("foreign_keys:" ++ name, t + 3),
              ("sample:" ++ name, t + 4)], t + 5)
          | .ok samp =>
            (.ok { table_info := ti, columns := cols, indexes := idx, foreign_keys := fks,
                   sample_data := samp, references := fks, referenced_by := [] },
             [("table_info:" ++ name, t), ("describe:" ++ name, t + 1),
              ("show_index:" ++ name, t + 2), ("foreign_keys:" ++ name, t + 3),
              ("sample:" ++ name, t + 4)], t + 5)

/-- The per-table loop of `generate_database_schema`: populate
`schema_data["tables"]` in enumeration order (Python dict insertion). -/
def buildTables (db : GenDb) :
    List String → Nat → List (String × TableEntry) →
    Except Err (List (String × TableEntry)) × List (String × Nat) × Nat
  | [], t, acc => (.ok acc, [], t)
  | name :: rest, t, acc =>
    match fetchTable db name t with
    | (.error e, evs, t') => (.error e, evs, t')
    | (.ok entry, evs, t') =>
      match buildTables db rest t' (dictInsert acc name entry) with
      | (r, evs', t'') => (r, evs ++ evs', t'')

def refEntry (T : String) (fk : FKRow) : RefBy :=
  { table := T, column := fk.COLUMN_NAME, constraint := fk.CONSTRAINT_NAME }

/-- Append one `referenced_by` record to the entry of table `R`. -/
def appendRefTo (tbls : List (String × TableEntry)) (R : String) (rb : RefBy) :
    List (String × TableEntry) :=
  tbls.map (fun p =>
    if p.1 = R then (p.1, { p.2 with referenced_by := p.2.referenced_by ++ [rb] }) else p)

/-- One iteration of the relationship-map loop body: record `fk` declared by
table `T` into the referenced table's `referenced_by`, only when the
referenced table is present (`if ref_table in schema_data["tables"]`). -/
def addRef (tbls : List (String × TableEntry)) (T : String) (fk : FKRow) :
    List (String × TableEntry) :=
  if (dictLookup tbls fk.REFERENCED_TABLE_NAME).isSome then
    appendRefTo tbls fk.REFERENCED_TABLE_NAME (refEntry T fk)
  else tbls

/-- The inner `for fk in table_data["foreign_keys"]` loop of the second
pass, processing the foreign keys of one table `T` in order. -/
def addRefs : List (String × TableEntry) → String → List FKRow →
    List (String × TableEntry)
  | tbls, _, [] => tbls
  | tbls, T, fk :: fks => addRefs (addRef tbls T fk) T fks

def secondPassGo : List (String × List FKRow) → List (String × TableEntry) →
    List (String × TableEntry)
  | [], tbls => tbls
  | (T, fks) :: rest, tbls => secondPassGo rest (addRefs tbls T fks)

/-- The `(table_name, foreign_keys)` pairs the second pass iterates over. -/
def srcOf (tbls : List (String × TableEntry)) : List (String × List FKRow) :=
  tbls.map (fun p => (p.1, p.2.foreign_keys))

/-- The "Build relationship map" second pass (source lines 103-112 of
`schema/generator.py`).  Python iterates over the table dict while appending
to `referenced_by` lists; the iterated `foreign_keys` lists are never
mutated, so iterating over the pre-pass `(name, foreign_keys)` pairs is the
same computation. -/
def secondPass (tbls : List (String × TableEntry)) : List (String × TableEntry) :=
  secondPassGo (srcOf tbls) tbls

/-- Embedding of `schema/generator.py::generate_database_schema`.
`t0` is the tick at which the call starts; the metadata block (including the
`datetime.now(timezone.utc)` call that produces `generated_at`) is evaluated
after the `SHOW TABLES` fetch and before the per-table loop, exactly as in
the source. -/
def generate_database_schema (db : GenDb) (t0 : Nat) :
    Except Err SchemaDoc × List (String × Nat) × Nat :=
  match db.database_name with
  | .error e => (.error e, [("database_name", t0)], t0 + 1)
  | .ok dbName =>
    match db.show_tables with
    | .error e => (.error e, [("database_name", t0), ("show_tables", t0 + 1)], t0 + 2)
    | .ok names =>
      let generatedAt := t0 + 2
      match buildTables db names (t0 + 3) [] with
      | (.error e, evs, t') =>
        (.error e,
         [("database_name", t0), ("show_tables", t0 + 1), ("now", t0 + 2)] ++ evs, t')
      | (.ok tbls, evs, t') =>
        (.ok { metadata := { database_name := dbName, generated_at := generatedAt,
                             version := "1.0.0", total_tables := names.length },
               tables := secondPass tbls },
         [("database_name", t0), ("show_tables", t0 + 1), ("now", t0 + 2)] ++ evs, t')

/-- Detail-fetch events are the per-table metadata queries, as opposed to the
three fixed setup events. -/
def isDetailFetch (tag : String) : Bool :=
  !(tag = "database_name" || tag = "show_tables" || tag = "now")

/-! ## Persistence helpers (`utils/helpers.py`)

The filesystem is a path-to-content map.  For the cache layer the stored
content is the parsed JSON value (reading a file stands for reading its
serialization); a byte-level refinement of `save_json_file` used for the
atomicity analysis follows below. -/

abbrev FS := List (String × Json)

/-- Embedding of `save_json_file`: write the whole serialized document to
`file_path + ".tmp"`, then atomically rename the temp file over
`file_path`. -/
def save_json_file (fs : FS) (file_path : String) (data : Json) : FS :=
  let temp_file := file_path ++ ".tmp"
  let written := dictInsert fs temp_file data
  dictInsert (dictRemove written temp_file) file_path data

/-- Embedding of `load_json_file`: `None` when the path does not exist. -/
def load_json_file (fs : FS) (file_path : String) : Option Json :=
  dictLookup fs file_path

/-- Byte-level filesystem: path to raw file content. -/
abbrev FSB := List (String × String)

/-- Byte-level refinement of `save_json_file` for the atomicity analysis:
the list of every filesystem state the write can be observed in, in order —
each partial prefix of the temp-file write (`json.dump` into the open temp
file, possibly interrupted), then the state after the atomic
`Path(temp_file).rename(file_path)`. -/
def save_json_file_states (fs : FSB) (file_path : String) (content : String) :
    List FSB :=
  let temp_file := file_path ++ ".tmp"
  ((List.range (content.length + 1)).map
    (fun i => dictInsert fs temp_file (content.take i)))
  ++ [dictInsert (dictRemove (dictInsert fs temp_file content) temp_file)
        file_path content]

/-! ## Staleness detector (`schema/generator.py::check_schema_needs_refresh`) -/

/-- Python falsiness of a JSON value (`if not schema_data`). -/
def jsonFalsy : Json → Bool
  | .null => true
  | .bool b => !b
  | .num n => n == 0
  | .str s => s == ""
  | .arr xs => xs.isEmpty
  | .obj fields => fields.isEmpty

/-- The database collaborator and failure injections visible to the cache
layer. `lastUpdate` is the `MAX(UPDATE_TIME)` metadata query of the
staleness detector (`NULL` when no engine reports one); `saveOutcome`
injects an I/O failure into `save_json_file`; `execute` answers data
queries with `DictCursor` rows. -/
structure World where
  genDb : GenDb
  lastUpdate : Except Err (Option Nat)
  saveOutcome : Option Err
  execute : String → Except Err (List Json)

/-- Path constant from `schema/cache.py` line 21. -/
def SCHEMA_FILE : String := "resources/database_schema.json"

def SCHEMA_CACHE_TTL : Nat := 3600
def QUERY_CACHE_TTL : Nat := 300
def QUERY_CACHE_SIZE : Nat := 100

def decDigitsToNat : List Char → Nat → Option Nat
  | [], acc => some acc
  | c :: rest, acc =>
    if c.isDigit then decDigitsToNat rest (acc * 10 + (c.toNat - 48)) else none

/-- Decimal parse of a timestamp string; stands for
`datetime.fromisoformat` on the decimal-rendered timestamps this embedding
uses (`none` = parse failure = the exception path). -/
def parseTimestamp (s : String) : Option Nat :=
  match s.data with
  | [] => none
  | l => decDigitsToNat l 0

/-- Embedding of `check_schema_needs_refresh`.  Timestamps are naturals: the
persisted ISO `generated_at` string is modelled as the decimal rendering of
its tick, and `datetime.fromisoformat` as `parseTimestamp` (failure to
parse raises, which the enclosing handler converts to `True`).  Note the
source loads the path `"database_schema.json"`, not `SCHEMA_FILE`. -/
def check_schema_needs_refresh (w : World) (fs : FS) : Bool :=
  match w.lastUpdate with
  | .error _ => true
  | .ok db_last_update =>
    match load_json_file fs "database_schema.json" with
    | none => true
    | some schema_data =>
      if jsonFalsy schema_data then true
      else
        match (jget schema_data "metadata").bind (fun m => jget m "generated_at") with
        | some (.str s) =>
          if s = "" then true
          else
            match parseTimestamp s with
            | none => true
            | some schema_time =>
              match db_last_update with
              | some d => decide (schema_time < d)
              | none => false
        | _ => true

/-! ## Cache manager (`schema/cache.py`)

The two module-level `TTLCache` instances become an explicit state record:
`schema_metadata_cache` (maxsize 1, only ever holding the `'schema_fresh'`
key) is the optional insertion tick of that key, and `query_cache` is a list
of entries with insertion ticks.  cachetools expires entries lazily: reads
treat an expired entry as absent, writes drop expired entries. -/

structure QEntry where
  key : String
  value : String
  insertedAt : Nat
deriving DecidableEq, Repr

structure CState where
  schemaFresh : Option Nat
  qcache : List QEntry
  fs : FS

/-- Membership test for the `schema_fresh` key of the metadata cache at tick `now`. -/
def metaFresh (now : Nat) (m : Option Nat) : Bool :=
  match m with
  | some t => decide (now < t + SCHEMA_CACHE_TTL)
  | none => false

/-- Unexpired lookup in the query cache (`cache_key in query_cache` followed
by `query_cache[cache_key]`). -/
def qlookup (now : Nat) : List QEntry → String → Option String
  | [], _ => none
  | e :: rest, k =>
    if e.key == k && decide (now < e.insertedAt + QUERY_CACHE_TTL) then some e.value
    else qlookup now rest k

/-- cachetools `TTLCache.__setitem__`: drop expired entries, replace any
existing entry for the key, evict the oldest entry when over capacity, then
insert with the current tick. -/
def qset (now : Nat) (c : List QEntry) (k v : String) : List QEntry :=
  let live := (c.filter (fun e => decide (now < e.insertedAt + QUERY_CACHE_TTL))).filter
    (fun e => e.key != k)
  let room := if live.length ≥ QUERY_CACHE_SIZE then live.drop 1 else live
  room ++ [{ key := k, value := v, insertedAt := now }]

/-- Collaborator calls observable from the schema path. -/
inductive SCall where
  | stalenessCall
  | generatorCall
deriving DecidableEq, Repr

/-- Serialized error document, `json.dumps` of the single-key error dict. -/
def errorDoc (m : String) : String := Json.dump (Json.obj [("error", Json.str m)])

def fkToJson (fk : FKRow) : Json :=
  Json.obj [("COLUMN_NAME", Json.str fk.COLUMN_NAME),
            ("REFERENCED_TABLE_NAME", Json.str fk.REFERENCED_TABLE_NAME),
            ("REFERENCED_COLUMN_NAME", Json.str fk.REFERENCED_COLUMN_NAME),
            ("CONSTRAINT_NAME", Json.str fk.CONSTRAINT_NAME)]

def refByToJson (rb : RefBy) : Json :=
  Json.obj [("table", Json.str rb.table), ("column", Json.str rb.column),
            ("constraint", Json.str rb.constraint)]

def tableEntryToJson (e : TableEntry) : Json :=
  Json.obj [("table_info", e.table_info),
            ("columns", Json.arr e.columns),
            ("indexes", Json.arr e.indexes),
            ("foreign_keys", Json.arr (e.foreign_keys.map fkToJson)),
            ("sample_data", Json.arr e.sample_data),
            ("relationships", Json.obj
               [("references", Json.arr (e.references.map fkToJson)),
                ("referenced_by", Json.arr (e.referenced_by.map refByToJson))])]

/-- The generated schema document as the JSON value that is persisted and
serialized (`generated_at` rendered as its decimal timestamp string, see
`check_schema_needs_refresh`). -/
def docToJson (doc : SchemaDoc) : Json :=
  Json.obj [("metadata", Json.obj
               [("database_name", Json.str doc.metadata.database_name),
                ("generated_at", Json.str (toString doc.metadata.generated_at)),
                ("version", Json.str doc.metadata.version),
                ("total_tables", Json.num (doc.metadata.total_tables : Int))]),
            ("tables", Json.obj (doc.tables.map (fun p => (p.1, tableEntryToJson p.2))))]

/-- The regeneration tail of `get_schema` (source lines 52-58 together with
the enclosing `except` handler, lines 60-62): generate, persist via
`save_schema_to_file`, mark fresh, serialize; any raised error becomes the
`{"error": ...}` document. -/
def regenerate (w : World) (now : Nat) (st : CState) (tr : List SCall) :
    CState × String × List SCall :=
  match (generate_database_schema w.genDb now).1 with
  | .error e => (st, errorDoc e.msg, tr ++ [.generatorCall])
  | .ok doc =>
    match w.saveOutcome with
    | some e => (st, errorDoc ("Error saving JSON file: " ++ e.msg), tr ++ [.generatorCall])
    | none =>
      ({ st with fs := save_json_file st.fs SCHEMA_FILE (docToJson doc), schemaFresh := some now },
       Json.dump (docToJson doc), tr ++ [.generatorCall])

/-- Embedding of `schema/cache.py::get_schema`.  Returns the new cache/file
state, the returned JSON string, and the trace of collaborator calls
(staleness check, generator). -/
def get_schema (w : World) (now : Nat) (st : CState) : CState × String × List SCall :=
  match dictLookup st.fs SCHEMA_FILE with
  | some fileData =>
    if metaFresh now st.schemaFresh then
      (st, Json.dump fileData, [])
    else if check_schema_needs_refresh w st.fs = false then
      ({ st with schemaFresh := some now }, Json.dump fileData, [.stalenessCall])
    else
      regenerate w now st [.stalenessCall]
  | none => regenerate w now st []

/-- Embedding of `schema/cache.py::refresh_schema`. -/
def refresh_schema (w : World) (now : Nat) (st : CState) : CState × String :=
  let st1 := { st with schemaFresh := none }
  match (generate_database_schema w.genDb now).1 with
  | .error e =>
    (st1, Json.dump (Json.obj [("status", Json.str "error"), ("message", Json.str e.msg)]))
  | .ok doc =>
    match w.saveOutcome with
    | some e =>
      (st1, Json.dump (Json.obj [("status", Json.str "error"),
             ("message", Json.str ("Error saving JSON file: " ++ e.msg))]))
    | none =>
      ({ st1 with fs := save_json_file st1.fs SCHEMA_FILE (docToJson doc),
                  schemaFresh := some now },
       Json.dump (Json.obj
         [("status", Json.str "success"),
          ("message", Json.str "Schema refreshed successfully"),
          ("generated_at", Json.str (toString doc.metadata.generated_at)),
          ("total_tables", Json.num (doc.metadata.total_tables : Int)),
          ("file_path", Json.str SCHEMA_FILE)]))

/-- Python `str.strip()`: drop whitespace from both ends. -/
def pyStrip (s : String) : String :=
  String.mk (((s.data.dropWhile Char.isWhitespace).reverse.dropWhile
    Char.isWhitespace).reverse)

/-- Python `str.upper()` (ASCII case mapping, as in the embedded queries). -/
def pyUpper (s : String) : String := String.mk (s.data.map Char.toUpper)

/-- Python `str.startswith(pre)`. -/
def pyStartsWith (s pre : String) : Bool := pre.data.isPrefixOf s.data

/-- Source lines 81-83: `if limit and "LIMIT" not in query.upper():
query += f" LIMIT {limit}"`.  Python `if limit` is integer truthiness
(`limit != 0`). -/
def withLimit (query : String) (limit : Int) : String :=
  if limit != 0 && !(strContainsSub (pyUpper query) "LIMIT") then
    query ++ " LIMIT " ++ toString limit
  else query

/-- Embedding of `schema/cache.py::query_with_cache`.  Returns the new
state, the result (`Except`: validation and execution errors are raised to
the caller), and the list of queries executed against the collaborator. -/
def query_with_cache (w : World) (now : Nat) (st : CState) (query : String) (limit : Int) :
    CState × Except Err String × List String :=
  if pyStrip query = "" then
    (st, .error (.validation "Query cannot be empty"), [])
  else if !(pyStartsWith (pyStrip (pyUpper query)) "SELECT") then
    (st, .error (.validation "Only SELECT queries are allowed"), [])
  else
    let query1 := withLimit query limit
    let cache_key := create_hash (query1 ++ ":" ++ toString limit)
    match qlookup now st.qcache cache_key with
    | some cached => (st, .ok cached, [])
    | none =>
      match w.execute query1 with
      | .error e => (st, .error e, [query1])
      | .ok results =>
        let result_json := Json.dump (Json.arr results)
        ({ st with qcache := qset now st.qcache cache_key result_json },
         .ok result_json, [query1])

/-- The `referenced_by` records contributed for table `R` by the source
pairs `(table, foreign_keys)`, in iteration order. -/
def collectRefs (R : String) : List (String × List FKRow) → List RefBy
  | [] => []
  | (T, fks) :: rest =>
    fks.filterMap (fun fk =>
      if fk.REFERENCED_TABLE_NAME = R then some (refEntry T fk) else none) ++
    collectRefs R rest

/-! ## Concrete collaborators for witnesses -/

def dbEmpty : GenDb :=
  { database_name := .ok "testdb", show_tables := .ok [],
    table_info := fun _ => .ok Json.null, describe := fun _ => .ok [],
    show_index := fun _ => .ok [], foreign_keys := fun _ => .ok [],
    sample_rows := fun _ => .ok [] }

def wTest : World :=
  { genDb := dbEmpty, lastUpdate := .ok none, saveOutcome := none,
    execute := fun _ => .ok [] }

def wExecFail : World :=
  { wTest with execute := fun _ => .error (.dbErr "MySQL server has gone away") }

def stEmpty : CState := { schemaFresh := none, qcache := [], fs := [] }

def fsbC8 : FSB := [("resources/database_schema.json", "old")]

def sC8 : FSB := dictInsert fsbC8 ("resources/database_schema.json" ++ ".tmp") ("ne".take 1)

/-- A schema document as persisted at `SCHEMA_FILE`, generated at tick 100. -/
def docT0 : Json :=
  Json.obj [("metadata", Json.obj
      [("database_name", Json.str "testdb"), ("generated_at", Json.str "100"),
       ("version", Json.str "1.0.0"), ("total_tables", Json.num 1)]),
    ("tables", Json.obj [])]

def dbOne : GenDb :=
  { database_name := .ok "testdb", show_tables := .ok ["t"],
    table_info := fun _ => .ok Json.null, describe := fun _ => .ok [],
    show_index := fun _ => .ok [], foreign_keys := fun _ => .ok [],
    sample_rows := fun _ => .ok [] }

def wC1 : World :=
  { genDb := dbOne, lastUpdate := .ok (some 50), saveOutcome := none,
    execute := fun _ => .ok [] }

def stC1 : CState := { schemaFresh := none, qcache := [], fs := [(SCHEMA_FILE, docT0)] }

def wC1later : World := { wC1 with lastUpdate := .ok (some 150) }

def wC1noUpdate : World := { wC1 with lastUpdate := .ok none }

/-- Like `stC1`, but the document is additionally present at the path the
detector loads. -/
def stC1both : CState :=
  { schemaFresh := none, qcache := [],
    fs := [(SCHEMA_FILE, docT0), ("database_schema.json", docT0)] }

def dbFail : GenDb := { dbEmpty with database_name := .error (.dbErr "Connection refused") }

def wGenFail : World := { wTest with genDb := dbFail }

def dC7doc : SchemaDoc :=
  match (generate_database_schema dbOne 0).1 with
  | .ok d => d
  | .error _ => default

def fkOrdersUsers : FKRow :=
  { COLUMN_NAME := "user_id", REFERENCED_TABLE_NAME := "users",
    REFERENCED_COLUMN_NAME := "id", CONSTRAINT_NAME := "fk_orders_users" }

/-- Two-table collaborator mirroring the spec's example:
`orders.user_id → users.id`. -/
def dbTwo : GenDb :=
  { database_name := .ok "testdb", show_tables := .ok ["users", "orders"],
    table_info := fun _ => .ok Json.null, describe := fun _ => .ok [],
    show_index := fun _ => .ok [],
    foreign_keys := fun n => .ok (if n = "orders" then [fkOrdersUsers] else []),
    sample_rows := fun _ => .ok [] }

def dC6doc : SchemaDoc :=
  match (generate_database_schema dbTwo 0).1 with
  | .ok d => d
  | .error _ => default

def ordersEntryC6 : TableEntry := ((dictLookup dC6doc.tables "orders").getD default)

def usersEntryC6 : TableEntry := ((dictLookup dC6doc.tables "users").getD default)

/-! ## Lemmas about the dict embedding -/

theorem dictLookup_dictInsert_self {α : Type} (l : List (String × α)) (k : String) (v : α) :
    dictLookup (dictInsert l k v) k = some v := by
  induction l with
  | nil => simp [dictInsert, dictLookup]
  | cons p rest ih =>
    obtain ⟨k', v'⟩ := p
    by_cases h : k' = k
    · simp [dictInsert, dictLookup, h]
    · simp [dictInsert, dictLookup, h, ih]

theorem dictLookup_dictInsert_ne {α : Type} (l : List (String × α)) (ki k : String) (v : α)
    (h : ki ≠ k) : dictLookup (dictInsert l ki v) k = dictLookup l k := by
  induction l with
  | nil => simp [dictInsert, dictLookup, h]
  | cons p rest ih =>
    obtain ⟨k', v'⟩ := p
    by_cases hk : k' = ki
    · subst hk
      simp [dictInsert, dictLookup, h]
    · simp [dictInsert, dictLookup, hk, ih]

theorem mem_dictInsert {α : Type} (p : String × α) (l : List (String × α)) (k : String) (v : α)
    (h : p ∈ dictInsert l k v) : p ∈ l ∨ p = (k, v) := by
  induction l with
  | nil =>
    simp [dictInsert] at h
    exact Or.inr h
  | cons q rest ih =>
    obtain ⟨k', v'⟩ := q
    by_cases hk : k' = k
    · simp only [dictInsert, if_pos hk] at h
      rcases List.mem_cons.mp h with h | h
      · exact Or.inr h
      · exact Or.inl (List.mem_cons_of_mem _ h)
    · simp only [dictInsert, if_neg hk] at h
      rcases List.mem_cons.mp h with h | h
      · exact Or.inl (by rw [h]; exact List.mem_cons_self _ _)
      · rcases ih h with h' | h'
        · exact Or.inl (List.mem_cons_of_mem _ h')
        · exact Or.inr h'

theorem dictLookup_eq_none_iff {α : Type} (l : List (String × α)) (k : String) :
    dictLookup l k = none ↔ k ∉ dictKeys l := by
  induction l with
  | nil => simp [dictLookup, dictKeys]
  | cons p rest ih =>
    obtain ⟨k', v'⟩ := p
    by_cases h : k' = k
    · simp [dictLookup, dictKeys, h]
    · simp [dictLookup, dictKeys, h, ih, Ne.symm h]

theorem dictKeys_dictInsert_of_notMem {α : Type} (l : List (String × α)) (k : String) (v : α)
    (h : k ∉ dictKeys l) : dictKeys (dictInsert l k v) = dictKeys l ++ [k] := by
  induction l with
  | nil => simp [dictInsert, dictKeys]
  | cons p rest ih =>
    obtain ⟨k', v'⟩ := p
    simp only [dictKeys, List.map_cons, List.mem_cons] at h
    push_neg at h
    simp only [dictKeys] at ih
    simp [dictInsert, dictKeys, Ne.symm h.1, ih h.2]

theorem mem_of_dictLookup_eq_some {α : Type} (l : List (String × α)) (k : String) (v : α)
    (h : dictLookup l k = some v) : (k, v) ∈ l := by
  induction l with
  | nil => simp [dictLookup] at h
  | cons p rest ih =>
    obtain ⟨k', v'⟩ := p
    by_cases hk : k' = k
    · subst hk
      simp [dictLookup] at h
      simp [h]
    · simp only [dictLookup, if_neg hk] at h
      exact List.mem_cons_of_mem _ (ih h)

theorem dictLookup_of_mem_nodup {α : Type} (l : List (String × α)) (k : String) (v : α)
    (hnd : (dictKeys l).Nodup) (h : (k, v) ∈ l) : dictLookup l k = some v := by
  induction l with
  | nil => simp at h
  | cons p rest ih =>
    obtain ⟨k', v'⟩ := p
    simp only [dictKeys, List.map_cons, List.nodup_cons] at hnd
    rcases List.mem_cons.mp h with h | h
    · injection h with h1 h2
      subst h1
      subst h2
      simp [dictLookup]
    · by_cases hk : k' = k
      · exfalso
        apply hnd.1
        subst hk
        exact List.mem_map.mpr ⟨(k', v), h, rfl⟩
      · simp only [dictLookup, if_neg hk]
        exact ih hnd.2 h

/-! ## Claim C8: atomic persistence -/

theorem tmp_path_ne (file_path : String) : file_path ++ ".tmp" ≠ file_path := by
  intro h
  have h2 : (file_path ++ ".tmp").length = file_path.length := by rw [h]
  rw [String.length_append] at h2
  have h3 : (".tmp" : String).length = 4 := rfl
  omega

/-- Claim C8: every filesystem state reachable during `save_json_file`
(each partial temp-file write, and the state after the atomic rename) shows
the target path either with its previous content or with the complete new
serialized content; the final state holds the complete new content. -/
theorem save_json_file_atomic (fs : FSB) (file_path content : String) (s : FSB)
    (hs : s ∈ save_json_file_states fs file_path content) :
    (dictLookup s file_path = dictLookup fs file_path ∨
      dictLookup s file_path = some content) ∧
    dictLookup
      (dictInsert (dictRemove (dictInsert fs (file_path ++ ".tmp") content)
        (file_path ++ ".tmp")) file_path content) file_path = some content := by
  constructor
  · unfold save_json_file_states at hs
    rcases List.mem_append.mp hs with h | h
    · left
      rcases List.mem_map.mp h with ⟨i, _, rfl⟩
      exact dictLookup_dictInsert_ne _ _ _ _ (tmp_path_ne file_path)
    · right
      rcases List.mem_singleton.mp h with rfl
      exact dictLookup_dictInsert_self _ _ _
  · exact dictLookup_dictInsert_self _ _ _

theorem save_json_file_atomic_witness :
    (sC8 ∈ save_json_file_states fsbC8 "resources/database_schema.json" "ne") ∧
    ((dictLookup sC8 "resources/database_schema.json" =
        dictLookup fsbC8 "resources/database_schema.json" ∨
      dictLookup sC8 "resources/database_schema.json" = some "ne") ∧
     dictLookup (dictInsert (dictRemove (dictInsert fsbC8
       ("resources/database_schema.json" ++ ".tmp") "ne")
       ("resources/database_schema.json" ++ ".tmp")) "resources/database_schema.json" "ne")
       "resources/database_schema.json" = some "ne") :=
  ⟨by decide,
   save_json_file_atomic fsbC8 "resources/database_schema.json" "ne" sC8 (by decide)⟩

/-! ## Claim C9: refresh frame effect -/

/-- Claim C9: `refresh_schema` never touches the query cache (the
`query_cache` component of the state is returned unchanged for every input
state and every generator outcome), and the freshness flag is cleared: the
resulting `schema_metadata_cache` content is independent of its previous
content — re-set only on a fully successful regeneration, empty otherwise. -/
theorem refresh_frame_effect (w : World) (now : Nat) (st : CState) :
    (refresh_schema w now st).1.qcache = st.qcache ∧
    (refresh_schema w now st).1.schemaFresh =
      (match (generate_database_schema w.genDb now).1, w.saveOutcome with
       | .ok _, none => some now
       | _, _ => none) := by
  rcases hg : (generate_database_schema w.genDb now).1 with e | doc <;>
    rcases hs : w.saveOutcome with _ | e' <;>
      simp [refresh_schema, hg, hs]

/-! ## Claim C2: query validation -/

/-- Claim C2: for every input that is empty, whitespace-only (`strip()`
empty), or whose upper-cased stripped text does not start with `SELECT`,
`query_with_cache` raises a `ValueError` that propagates to the caller
(an `Except.error` of validation kind, not a JSON document), the database
collaborator is never invoked, and the cache state is untouched. -/
theorem query_validation_rejects (w : World) (now : Nat) (st : CState)
    (query : String) (limit : Int)
    (h : pyStrip query = "" ∨ pyStartsWith (pyStrip (pyUpper query)) "SELECT" = false) :
    (∃ m, (query_with_cache w now st query limit).2.1 = .error (.validation m)) ∧
    (query_with_cache w now st query limit).2.2 = [] ∧
    (query_with_cache w now st query limit).1 = st := by
  by_cases h0 : pyStrip query = ""
  · exact ⟨⟨"Query cannot be empty", by simp [query_with_cache, h0]⟩,
      by simp [query_with_cache, h0], by simp [query_with_cache, h0]⟩
  · rcases h with h | h
    · exact absurd h h0
    · exact ⟨⟨"Only SELECT queries are allowed", by simp [query_with_cache, h0, h]⟩,
        by simp [query_with_cache, h0, h], by simp [query_with_cache, h0, h]⟩

theorem query_validation_rejects_witness :
    (pyStrip "UPDATE t SET x=1" = "" ∨
      pyStartsWith (pyStrip (pyUpper "UPDATE t SET x=1")) "SELECT" = false) ∧
    ((∃ m, (query_with_cache wTest 0 stEmpty "UPDATE t SET x=1" 1000).2.1 =
        .error (.validation m)) ∧
     (query_with_cache wTest 0 stEmpty "UPDATE t SET x=1" 1000).2.2 = [] ∧
     (query_with_cache wTest 0 stEmpty "UPDATE t SET x=1" 1000).1 = stEmpty) :=
  ⟨by decide, query_validation_rejects wTest 0 stEmpty "UPDATE t SET x=1" 1000 (by decide)⟩

/-! ## Claim C3: LIMIT injection -/

theorem append_limit_ne (q s : String) : q ≠ q ++ " LIMIT " ++ s := by
  intro h
  have h2 := congrArg String.length h
  rw [String.length_append, String.length_append] at h2
  have h7 : (" LIMIT " : String).length = 7 := rfl
  omega

/-- Claim C3: the query text is extended to `query ++ " LIMIT " ++ limit`
exactly when `limit` is truthy and the upper-cased query does not contain
the substring `LIMIT`; a query containing `LIMIT` anywhere is left
unmodified for every limit value; and whatever `query_with_cache` executes
against the collaborator is exactly this final text. -/
theorem limit_injection_iff (query : String) (limit : Int) :
    (withLimit query limit = query ++ " LIMIT " ++ toString limit ↔
       limit ≠ 0 ∧ strContainsSub (pyUpper query) "LIMIT" = false) ∧
    (strContainsSub (pyUpper query) "LIMIT" = true → withLimit query limit = query) ∧
    (∀ w now st, (query_with_cache w now st query limit).2.2 ≠ [] →
       (query_with_cache w now st query limit).2.2 = [withLimit query limit]) := by
  refine ⟨?_, ?_, ?_⟩
  · by_cases hl : limit = 0
    · subst hl
      simp only [withLimit, bne_self_eq_false, Bool.false_and, if_false]
      constructor
      · intro h
        exact absurd h (append_limit_ne query (toString (0 : Int)))
      · intro h
        exact absurd rfl h.1
    · by_cases hc : strContainsSub (pyUpper query) "LIMIT" = true
      · simp only [withLimit, hc, Bool.not_true, Bool.and_false, if_false]
        constructor
        · intro h
          exact absurd h (append_limit_ne query (toString limit))
        · intro h
          exact Bool.noConfusion h.2
      · have hc' : strContainsSub (pyUpper query) "LIMIT" = false :=
          Bool.eq_false_iff.mpr hc
        have hcond : (limit != 0 && !(strContainsSub (pyUpper query) "LIMIT")) = true := by
          simp [hc', bne_iff_ne, hl]
        simp only [withLimit, hcond, if_true]
        simp [hl, hc']
  · intro hc
    simp [withLimit, hc]
  · intro w now st hne
    by_cases h0 : pyStrip query = ""
    · simp [query_with_cache, h0] at hne
    · by_cases h1 : pyStartsWith (pyStrip (pyUpper query)) "SELECT" = true
      · rcases hq : qlookup now st.qcache
            (create_hash (withLimit query limit ++ ":" ++ toString limit)) with _ | c
        · rcases he : w.execute (withLimit query limit) with e | r <;>
            simp [query_with_cache, h0, h1, hq, he]
        · simp [query_with_cache, h0, h1, hq] at hne
      · simp [query_with_cache, h0,
          Bool.eq_false_iff.mpr h1] at hne

theorem limit_injection_iff_witness :
    ((query_with_cache wTest 0 stEmpty "SELECT * FROM t" 10).2.2 ≠ []) ∧
    (query_with_cache wTest 0 stEmpty "SELECT * FROM t" 10).2.2 =
      [withLimit "SELECT * FROM t" 10] ∧
    withLimit "SELECT * FROM t" 10 = "SELECT * FROM t LIMIT 10" ∧
    withLimit "SELECT a FROM t LIMIT 3" 10 = "SELECT a FROM t LIMIT 3" :=
  ⟨by decide,
   (limit_injection_iff "SELECT * FROM t" 10).2.2 wTest 0 stEmpty (by decide),
   by decide, by decide⟩

/-! ## Claim C10: query-cache error atomicity -/

theorem qlookup_none_mono (now now' : Nat) (c : List QEntry) (k : String)
    (hle : now ≤ now') (h : qlookup now c k = none) : qlookup now' c k = none := by
  induction c with
  | nil => simp [qlookup]
  | cons e rest ih =>
    simp only [qlookup] at h ⊢
    by_cases hc : (e.key == k && decide (now < e.insertedAt + QUERY_CACHE_TTL)) = true
    · simp [hc] at h
    · have h' : qlookup now rest k = none := by
        simpa [hc] using h
      by_cases hc' : (e.key == k && decide (now' < e.insertedAt + QUERY_CACHE_TTL)) = true
      · exfalso
        apply hc
        simp only [Bool.and_eq_true, decide_eq_true_eq] at hc' ⊢
        exact ⟨hc'.1, lt_of_le_of_lt hle hc'.2⟩
      · simp only [Bool.eq_false_iff.mpr hc', if_false]
        exact ih h'

/-- Claim C10: whenever `query_with_cache` raises (validation failure or
database execution error) the state — in particular the query cache — is
returned unchanged: nothing is created, overwritten or evicted; and if the
failure happened at execution (the collaborator was invoked), any retry of
the same `(query, limit)` at the same or a later tick executes against the
database again, with the same executed query. -/
theorem query_error_atomicity (w : World) (now : Nat) (st : CState)
    (query : String) (limit : Int) (e : Err)
    (h : (query_with_cache w now st query limit).2.1 = .error e) :
    (query_with_cache w now st query limit).1 = st ∧
    ∀ now', now ≤ now' →
      (query_with_cache w now st query limit).2.2 ≠ [] →
      (query_with_cache w now' st query limit).2.2 =
        (query_with_cache w now st query limit).2.2 := by
  by_cases h0 : pyStrip query = ""
  · refine ⟨by simp [query_with_cache, h0], ?_⟩
    intro now' _ hne
    simp [query_with_cache, h0] at hne
  · by_cases h1 : pyStartsWith (pyStrip (pyUpper query)) "SELECT" = true
    · rcases hq : qlookup now st.qcache
          (create_hash (withLimit query limit ++ ":" ++ toString limit)) with _ | c
      · rcases he : w.execute (withLimit query limit) with e' | rows
        · refine ⟨by simp [query_with_cache, h0, h1, hq, he], ?_⟩
          intro now' hle _
          have hq' := qlookup_none_mono now now' st.qcache _ hle hq
          simp [query_with_cache, h0, h1, hq, hq', he]
        · exfalso
          simp [query_with_cache, h0, h1, hq, he] at h
      · exfalso
        simp [query_with_cache, h0, h1, hq] at h
    · refine ⟨by simp [query_with_cache, h0, Bool.eq_false_iff.mpr h1], ?_⟩
      intro now' _ hne
      simp [query_with_cache, h0, Bool.eq_false_iff.mpr h1] at hne

theorem query_error_atomicity_witness :
    ((query_with_cache wExecFail 0 stEmpty "SELECT 1" 5).2.1 =
      .error (.dbErr "MySQL server has gone away")) ∧
    (query_with_cache wExecFail 0 stEmpty "SELECT 1" 5).1 = stEmpty ∧
    (query_with_cache wExecFail 7 stEmpty "SELECT 1" 5).2.2 =
      (query_with_cache wExecFail 0 stEmpty "SELECT 1" 5).2.2 :=
  ⟨by decide,
   (query_error_atomicity wExecFail 0 stEmpty "SELECT 1" 5
     (Err.dbErr "MySQL server has gone away") (by decide)).1,
   (query_error_atomicity wExecFail 0 stEmpty "SELECT 1" 5
     (Err.dbErr "MySQL server has gone away") (by decide)).2
     7 (by decide) (by decide)⟩

/-! ## Claim C1: staleness round-trip -/

/-- Support for the path-mismatch finding: the detector's comparison logic
is the spec's when a document IS present at the path it loads
(`"database_schema.json"`): max update 50 against `generated_at` 100 is
fresh, 150 is stale, and an absent update time is fresh. -/
theorem check_comparison_logic_when_file_found :
    check_schema_needs_refresh wC1 [("database_schema.json", docT0)] = false ∧
    check_schema_needs_refresh wC1later [("database_schema.json", docT0)] = true ∧
    check_schema_needs_refresh wC1noUpdate [("database_schema.json", docT0)] = false := by
  decide

/-- Support for the path-mismatch finding: with the document additionally
present at the path the detector loads, `get_schema` performs only the
staleness check and does not invoke the generator. -/
theorem no_regeneration_when_detector_path_populated :
    (get_schema wC1 200 stC1both).2.2 = [SCall.stalenessCall] := by decide

/-- Claim C1 (code bug): the schema document is persisted at
`SCHEMA_FILE = "resources/database_schema.json"` with `generated_at = 100`,
the freshness flag is absent, and the database's max `UPDATE_TIME` is 50,
strictly earlier than 100 — yet `get_schema` still invokes the generator,
because `check_schema_needs_refresh` loads the path
`"database_schema.json"` (generator.py line 139), not the `SCHEMA_FILE`
path the cache writes, finds nothing there, and reports stale. -/
theorem staleness_detector_path_mismatch :
    load_json_file stC1.fs SCHEMA_FILE = some docT0 ∧
    (jget docT0 "metadata").bind (fun m => jget m "generated_at") =
      some (Json.str "100") ∧
    wC1.lastUpdate = .ok (some 50) ∧ 50 ≤ 100 ∧
    load_json_file stC1.fs "database_schema.json" = none ∧
    check_schema_needs_refresh wC1 stC1.fs = true ∧
    SCall.generatorCall ∈ (get_schema wC1 200 stC1).2.2 :=
  ⟨rfl, rfl, rfl, by omega, rfl, rfl, by decide⟩

/-! ## Claim C5: error-handling asymmetry -/

/-- Claim C5: on the schema paths no failure propagates: when regeneration
is reached and generation fails, `get_schema` returns the serialized
`{"error": message}` document; when persistence fails it likewise returns
an error document; a staleness-check failure is absorbed (it forces
regeneration and, if that succeeds, the fresh document is returned);
`refresh_schema` returns a `{"status": "error", "message": ...}` document
when generation fails.  In contrast, on the query path an execution error
propagates to the caller as the raised exception. -/
theorem schema_error_handling_asymmetry (w : World) (now : Nat) (st : CState) :
    (∀ e, dictLookup st.fs SCHEMA_FILE = none →
       (generate_database_schema w.genDb now).1 = .error e →
       (get_schema w now st).2.1 = errorDoc e.msg) ∧
    (∀ e doc, dictLookup st.fs SCHEMA_FILE = none →
       (generate_database_schema w.genDb now).1 = .ok doc →
       w.saveOutcome = some e →
       (get_schema w now st).2.1 = errorDoc ("Error saving JSON file: " ++ e.msg)) ∧
    (∀ e doc fileData, dictLookup st.fs SCHEMA_FILE = some fileData →
       metaFresh now st.schemaFresh = false →
       w.lastUpdate = .error e →
       (generate_database_schema w.genDb now).1 = .ok doc →
       w.saveOutcome = none →
       (get_schema w now st).2.1 = Json.dump (docToJson doc)) ∧
    (∀ e, (generate_database_schema w.genDb now).1 = .error e →
       (refresh_schema w now st).2 =
         Json.dump (Json.obj [("status", Json.str "error"),
           ("message", Json.str e.msg)])) ∧
    (∀ query limit e, ¬ pyStrip query = "" →
       pyStartsWith (pyStrip (pyUpper query)) "SELECT" = true →
       qlookup now st.qcache
         (create_hash (withLimit query limit ++ ":" ++ toString limit)) = none →
       w.execute (withLimit query limit) = .error e →
       (query_with_cache w now st query limit).2.1 = .error e) := by
  refine ⟨?_, ?_, ?_, ?_, ?_⟩
  · intro e hfs hg
    simp [get_schema, regenerate, hfs, hg]
  · intro e doc hfs hg hs
    simp [get_schema, regenerate, hfs, hg, hs]
  · intro e doc fileData hfs hmf hlu hg hs
    have hchk : check_schema_needs_refresh w st.fs = true := by
      simp [check_schema_needs_refresh, hlu]
    simp [get_schema, regenerate, hfs, hmf, hchk, hg, hs]
  · intro e hg
    simp [refresh_schema, hg]
  · intro query limit e h0 h1 hq he
    simp [query_with_cache, h0, h1, hq, he]

theorem schema_error_handling_asymmetry_witness :
    dictLookup stEmpty.fs SCHEMA_FILE = none ∧
    (generate_database_schema wGenFail.genDb 0).1 = .error (.dbErr "Connection refused") ∧
    (get_schema wGenFail 0 stEmpty).2.1 = errorDoc "Connection refused" ∧
    (refresh_schema wGenFail 0 stEmpty).2 =
      Json.dump (Json.obj [("status", Json.str "error"),
        ("message", Json.str "Connection refused")]) ∧
    (query_with_cache wExecFail 0 stEmpty "SELECT 1" 5).2.1 =
      .error (.dbErr "MySQL server has gone away") :=
  ⟨rfl, rfl,
   (schema_error_handling_asymmetry wGenFail 0 stEmpty).1
     (.dbErr "Connection refused") rfl rfl,
   (schema_error_handling_asymmetry wGenFail 0 stEmpty).2.2.2.1
     (.dbErr "Connection refused") rfl,
   (schema_error_handling_asymmetry wExecFail 0 stEmpty).2.2.2.2
     "SELECT 1" 5 (.dbErr "MySQL server has gone away")
     (by decide) (by decide) rfl rfl⟩

/-! ## Claim C7: generation timestamp ordering -/

theorem fetchTable_facts (db : GenDb) (name : String) (t : Nat) :
    (∀ ev ∈ (fetchTable db name t).2.1, t ≤ ev.2) ∧ t ≤ (fetchTable db name t).2.2 := by
  unfold fetchTable
  rcases db.table_info name with e | ti
  · refine ⟨?_, by simp⟩
    intro ev hev
    simp at hev
    subst hev
    simp
  · rcases db.describe name with e | cols
    · refine ⟨?_, by simp⟩
      intro ev hev
      simp at hev
      rcases hev with rfl | rfl <;> simp
    · rcases db.show_index name with e | idx
      · refine ⟨?_, by simp⟩
        intro ev hev
        simp at hev
        rcases hev with rfl | rfl | rfl <;> simp
      · rcases db.foreign_keys name with e | fks
        · refine ⟨?_, by simp⟩
          intro ev hev
          simp at hev
          rcases hev with rfl | rfl | rfl | rfl <;> simp
        · rcases db.sample_rows name with e | samp
          · refine ⟨?_, by simp⟩
            intro ev hev
            simp at hev
            rcases hev with rfl | rfl | rfl | rfl | rfl <;> simp
          · refine ⟨?_, by simp⟩
            intro ev hev
            simp at hev
            rcases hev with rfl | rfl | rfl | rfl | rfl <;> simp

theorem buildTables_facts (db : GenDb) :
    ∀ (names : List String) (t : Nat) (acc : List (String × TableEntry)),
      (∀ ev ∈ (buildTables db names t acc).2.1, t ≤ ev.2) ∧
      t ≤ (buildTables db names t acc).2.2
  | [], t, acc => by simp [buildTables]
  | name :: rest, t, acc => by
    have hf := fetchTable_facts db name t
    rcases hft : fetchTable db name t with ⟨r, evs, t'⟩
    rw [hft] at hf
    rcases r with e | entry
    · constructor
      · intro ev hev
        simp only [buildTables, hft] at hev
        exact hf.1 ev hev
      · simp only [buildTables, hft]
        exact hf.2
    · have ih := buildTables_facts db rest t' (dictInsert acc name entry)
      rcases hbt : buildTables db rest t' (dictInsert acc name entry) with ⟨r', evs', t''⟩
      rw [hbt] at ih
      constructor
      · intro ev hev
        simp only [buildTables, hft, hbt] at hev
        rcases List.mem_append.mp hev with hev | hev
        · exact hf.1 ev hev
        · exact le_trans hf.2 (ih.1 ev hev)
      · simp only [buildTables, hft, hbt]
        exact le_trans hf.2 ih.2

/-- Decomposition of a successful `generate_database_schema` run. -/
theorem generate_ok_parts (db : GenDb) (t0 : Nat) (doc : SchemaDoc)
    (h : (generate_database_schema db t0).1 = .ok doc) :
    doc.metadata.generated_at = t0 + 2 ∧
    ∃ names tbls evs t', db.show_tables = .ok names ∧ names.length = doc.metadata.total_tables ∧
      buildTables db names (t0 + 3) [] = (.ok tbls, evs, t') ∧
      doc.tables = secondPass tbls ∧
      (generate_database_schema db t0).2.1 =
        [("database_name", t0), ("show_tables", t0 + 1), ("now", t0 + 2)] ++ evs := by
  rcases hdn : db.database_name with e | dbn
  · simp [generate_database_schema, hdn] at h
  · rcases hst : db.show_tables with e | names
    · simp [generate_database_schema, hdn, hst] at h
    · rcases hbt : buildTables db names (t0 + 3) [] with ⟨r, evs, t'⟩
      rcases r with e | tbls
      · simp [generate_database_schema, hdn, hst, hbt] at h
      · simp only [generate_database_schema, hdn, hst, hbt] at h
        injection h with h'
        subst h'
        exact ⟨rfl, names, tbls, evs, t', rfl, rfl, hbt, rfl,
          by simp [generate_database_schema, hdn, hst, hbt]⟩

/-- Claim C7 counterexample: for the one-table collaborator `dbOne` started
at tick 0, the generated document carries `generated_at = 2` while the
`table_info` fetch for table `t` happens at tick 3: `generated_at` is
stamped when the metadata block is built, before the per-table fetches, so
it IS earlier than a table-fetch instant, contradicting the claim. -/
theorem generated_at_final_step_cex :
    (match (generate_database_schema dbOne 0).1 with
     | .ok d => some d.metadata.generated_at
     | .error _ => none) = some 2 ∧
    ("table_info:t", 3) ∈ (generate_database_schema dbOne 0).2.1 ∧
    ¬ (3 ≤ 2) := by decide

/-- Claim C7 (amended): `generated_at` is stamped with the clock instant at
which the metadata block is built — after resolving the database name and
enumerating tables, but before the per-table detail fetches and the second
pass — so for every successful generation it is strictly earlier than the
instant of every per-table metadata fetch. -/
theorem generated_at_precedes_detail_fetches (db : GenDb) (t0 : Nat) (doc : SchemaDoc)
    (h : (generate_database_schema db t0).1 = .ok doc) :
    ∀ ev ∈ (generate_database_schema db t0).2.1, isDetailFetch ev.1 = true →
      doc.metadata.generated_at < ev.2 := by
  obtain ⟨hga, names, tbls, evs, t', hst, hlen, hbt, htab, htr⟩ :=
    generate_ok_parts db t0 doc h
  intro ev hev hdf
  rw [htr] at hev
  rcases List.mem_append.mp hev with hev | hev
  · simp at hev
    rcases hev with rfl | rfl | rfl <;> simp [isDetailFetch] at hdf
  · have h2 := (buildTables_facts db names (t0 + 3) []).1 ev (by rw [hbt]; exact hev)
    omega

theorem generated_at_precedes_detail_fetches_witness :
    (generate_database_schema dbOne 0).1 = .ok dC7doc ∧
    (("table_info:t", 3) ∈ (generate_database_schema dbOne 0).2.1) ∧
    isDetailFetch "table_info:t" = true ∧
    dC7doc.metadata.generated_at < 3 :=
  ⟨by rfl, by decide, by decide,
   generated_at_precedes_detail_fetches dbOne 0 dC7doc (by rfl) ("table_info:t", 3)
     (by decide) (by decide)⟩

/-! ## Claim C6: relationship symmetry -/

theorem fetchTable_entry_inv (db : GenDb) (name : String) (t : Nat) (e : TableEntry)
    (h : (fetchTable db name t).1 = .ok e) :
    e.references = e.foreign_keys ∧ e.referenced_by = [] := by
  rcases h1 : db.table_info name with er | ti
  · simp [fetchTable, h1] at h
  · rcases h2 : db.describe name with er | cols
    · simp [fetchTable, h1, h2] at h
    · rcases h3 : db.show_index name with er | idx
      · simp [fetchTable, h1, h2, h3] at h
      · rcases h4 : db.foreign_keys name with er | fks
        · simp [fetchTable, h1, h2, h3, h4] at h
        · rcases h5 : db.sample_rows name with er | samp
          · simp [fetchTable, h1, h2, h3, h4, h5] at h
          · simp [fetchTable, h1, h2, h3, h4, h5] at h
            subst h
            exact ⟨rfl, rfl⟩

theorem buildTables_entry_inv (db : GenDb) :
    ∀ (names : List String) (t : Nat) (acc tbls : List (String × TableEntry)),
      (∀ p ∈ acc, p.2.references = p.2.foreign_keys ∧ p.2.referenced_by = []) →
      (buildTables db names t acc).1 = .ok tbls →
      ∀ p ∈ tbls, p.2.references = p.2.foreign_keys ∧ p.2.referenced_by = []
  | [], t, acc, tbls, hacc, h => by
    simp [buildTables] at h
    subst h
    exact hacc
  | name :: rest, t, acc, tbls, hacc, h => by
    rcases hft : fetchTable db name t with ⟨r, evs, t'⟩
    rcases r with e | entry
    · simp [buildTables, hft] at h
    · simp only [buildTables, hft] at h
      rcases hbt : buildTables db rest t' (dictInsert acc name entry) with ⟨r', evs', t''⟩
      simp only [hbt] at h
      have hentry : entry.references = entry.foreign_keys ∧ entry.referenced_by = [] :=
        fetchTable_entry_inv db name t entry (by rw [hft])
      refine buildTables_entry_inv db rest t' (dictInsert acc name entry) tbls ?_ ?_
      · intro p hp
        rcases mem_dictInsert p acc name entry hp with hp' | hp'
        · exact hacc p hp'
        · rw [hp']
          exact hentry
      · rw [hbt]
        exact h

theorem buildTables_keys (db : GenDb) :
    ∀ (names : List String) (t : Nat) (acc tbls : List (String × TableEntry)),
      (∀ n ∈ names, dictLookup acc n = none) → names.Nodup →
      (buildTables db names t acc).1 = .ok tbls →
      dictKeys tbls = dictKeys acc ++ names
  | [], t, acc, tbls, _, _, h => by
    simp [buildTables] at h
    subst h
    simp
  | name :: rest, t, acc, tbls, hdisj, hnd, h => by
    rcases hft : fetchTable db name t with ⟨r, evs, t'⟩
    rcases r with e | entry
    · simp [buildTables, hft] at h
    · simp only [buildTables, hft] at h
      rcases hbt : buildTables db rest t' (dictInsert acc name entry) with ⟨r', evs', t''⟩
      simp only [hbt] at h
      have hnone : dictLookup acc name = none := hdisj name (List.mem_cons_self _ _)
      have hkeys : dictKeys (dictInsert acc name entry) = dictKeys acc ++ [name] :=
        dictKeys_dictInsert_of_notMem acc name entry
          ((dictLookup_eq_none_iff acc name).mp hnone)
      have hdisj' : ∀ n ∈ rest, dictLookup (dictInsert acc name entry) n = none := by
        intro n hn
        have hne : name ≠ n := by
          rintro rfl
          exact (List.nodup_cons.mp hnd).1 hn
        rw [dictLookup_dictInsert_ne acc name n entry hne]
        exact hdisj n (List.mem_cons_of_mem _ hn)
      have hrec := buildTables_keys db rest t' (dictInsert acc name entry) tbls hdisj'
        (List.nodup_cons.mp hnd).2 (by rw [hbt]; exact h)
      rw [hrec, hkeys]
      simp

theorem dictKeys_appendRefTo (tbls : List (String × TableEntry)) (R : String) (rb : RefBy) :
    dictKeys (appendRefTo tbls R rb) = dictKeys tbls := by
  unfold appendRefTo dictKeys
  rw [List.map_map]
  congr 1
  funext p
  by_cases h : p.1 = R <;> simp [h]

theorem appendRefTo_cons (k : String) (e : TableEntry) (rest : List (String × TableEntry))
    (R : String) (rb : RefBy) :
    appendRefTo ((k, e) :: rest) R rb =
      (if k = R then (k, { e with referenced_by := e.referenced_by ++ [rb] }) else (k, e)) ::
        appendRefTo rest R rb := rfl

theorem dictLookup_appendRefTo_self (tbls : List (String × TableEntry)) (R : String)
    (rb : RefBy) :
    dictLookup (appendRefTo tbls R rb) R =
      (dictLookup tbls R).map
        (fun e => { e with referenced_by := e.referenced_by ++ [rb] }) := by
  induction tbls with
  | nil => rfl
  | cons p rest ih =>
    obtain ⟨k, e⟩ := p
    rw [appendRefTo_cons]
    by_cases h : k = R
    · subst h
      rw [if_pos rfl]
      simp [dictLookup]
    · rw [if_neg h]
      simp [dictLookup, h, ih]

theorem dictLookup_appendRefTo_ne (tbls : List (String × TableEntry)) (R : String)
    (rb : RefBy) (R' : String) (h : R' ≠ R) :
    dictLookup (appendRefTo tbls R rb) R' = dictLookup tbls R' := by
  induction tbls with
  | nil => rfl
  | cons p rest ih =>
    obtain ⟨k, e⟩ := p
    rw [appendRefTo_cons]
    by_cases hk : k = R
    · subst hk
      rw [if_pos rfl]
      simp [dictLookup, Ne.symm h, ih]
    · rw [if_neg hk]
      simp [dictLookup, hk, ih]

theorem dictLookup_addRef (tbls : List (String × TableEntry)) (T : String) (fk : FKRow)
    (R : String) :
    dictLookup (addRef tbls T fk) R =
      if fk.REFERENCED_TABLE_NAME = R then
        (dictLookup tbls R).map
          (fun e => { e with referenced_by := e.referenced_by ++ [refEntry T fk] })
      else dictLookup tbls R := by
  unfold addRef
  by_cases hp : (dictLookup tbls fk.REFERENCED_TABLE_NAME).isSome
  · rw [if_pos hp]
    by_cases hR : fk.REFERENCED_TABLE_NAME = R
    · subst hR
      rw [if_pos rfl, dictLookup_appendRefTo_self]
    · rw [if_neg hR, dictLookup_appendRefTo_ne _ _ _ _ (fun hh => hR hh.symm)]
  · rw [if_neg hp]
    by_cases hR : fk.REFERENCED_TABLE_NAME = R
    · subst hR
      rw [if_pos rfl, Option.not_isSome_iff_eq_none.mp hp]
      rfl
    · rw [if_neg hR]

theorem dictKeys_addRef (tbls : List (String × TableEntry)) (T : String) (fk : FKRow) :
    dictKeys (addRef tbls T fk) = dictKeys tbls := by
  unfold addRef
  by_cases hp : (dictLookup tbls fk.REFERENCED_TABLE_NAME).isSome
  · rw [if_pos hp, dictKeys_appendRefTo]
  · rw [if_neg hp]

theorem dictLookup_addRefs (T : String) :
    ∀ (fks : List FKRow) (tbls : List (String × TableEntry)) (R : String),
      dictLookup (addRefs tbls T fks) R =
        (dictLookup tbls R).map (fun e =>
          { e with referenced_by := e.referenced_by ++ fks.filterMap (fun fk =>
              if fk.REFERENCED_TABLE_NAME = R then some (refEntry T fk) else none) })
  | [], tbls, R => by
    simp only [addRefs]
    rcases dictLookup tbls R with _ | e
    · rfl
    · simp
  | fk :: fks, tbls, R => by
    simp only [addRefs]
    rw [dictLookup_addRefs T fks (addRef tbls T fk) R]
    rw [dictLookup_addRef]
    by_cases hR : fk.REFERENCED_TABLE_NAME = R
    · rw [if_pos hR]
      rcases dictLookup tbls R with _ | e
      · rfl
      · simp [List.filterMap_cons, hR, List.append_assoc]
    · rw [if_neg hR]
      rcases dictLookup tbls R with _ | e
      · rfl
      · simp [List.filterMap_cons, hR]

theorem dictKeys_addRefs (T : String) :
    ∀ (fks : List FKRow) (tbls : List (String × TableEntry)),
      dictKeys (addRefs tbls T fks) = dictKeys tbls
  | [], tbls => rfl
  | fk :: fks, tbls => by
    simp only [addRefs]
    rw [dictKeys_addRefs T fks (addRef tbls T fk), dictKeys_addRef]

theorem dictLookup_secondPassGo :
    ∀ (src : List (String × List FKRow)) (tbls : List (String × TableEntry)) (R : String),
      dictLookup (secondPassGo src tbls) R =
        (dictLookup tbls R).map (fun e =>
          { e with referenced_by := e.referenced_by ++ collectRefs R src })
  | [], tbls, R => by
    simp only [secondPassGo]
    rcases dictLookup tbls R with _ | e
    · rfl
    · simp [collectRefs]
  | (T, fks) :: rest, tbls, R => by
    simp only [secondPassGo]
    rw [dictLookup_secondPassGo rest (addRefs tbls T fks) R]
    rw [dictLookup_addRefs T fks tbls R]
    rcases dictLookup tbls R with _ | e
    · rfl
    · simp [collectRefs, List.append_assoc]

theorem dictKeys_secondPassGo :
    ∀ (src : List (String × List FKRow)) (tbls : List (String × TableEntry)),
      dictKeys (secondPassGo src tbls) = dictKeys tbls
  | [], tbls => rfl
  | (T, fks) :: rest, tbls => by
    simp only [secondPassGo]
    rw [dictKeys_secondPassGo rest (addRefs tbls T fks), dictKeys_addRefs]

theorem dictLookup_secondPass (tbls : List (String × TableEntry)) (R : String) :
    dictLookup (secondPass tbls) R =
      (dictLookup tbls R).map (fun e =>
        { e with referenced_by := e.referenced_by ++ collectRefs R (srcOf tbls) }) :=
  dictLookup_secondPassGo (srcOf tbls) tbls R

theorem dictKeys_secondPass (tbls : List (String × TableEntry)) :
    dictKeys (secondPass tbls) = dictKeys tbls :=
  dictKeys_secondPassGo _ tbls

theorem mem_collectRefs_of (R : String) :
    ∀ (src : List (String × List FKRow)) (T : String) (fks : List FKRow) (fk : FKRow),
      (T, fks) ∈ src → fk ∈ fks → fk.REFERENCED_TABLE_NAME = R →
      refEntry T fk ∈ collectRefs R src
  | [], T, fks, fk, hsrc, _, _ => by simp at hsrc
  | (T', fks') :: rest, T, fks, fk, hsrc, hfk, hR => by
    rcases List.mem_cons.mp hsrc with hsrc | hsrc
    · injection hsrc with h1 h2
      subst h1
      subst h2
      apply List.mem_append_left
      exact List.mem_filterMap.mpr ⟨fk, hfk, by rw [if_pos hR]⟩
    · exact List.mem_append_right _ (mem_collectRefs_of R rest T fks fk hsrc hfk hR)

theorem collectRefs_mem_inv (R : String) :
    ∀ (src : List (String × List FKRow)) (rb : RefBy), rb ∈ collectRefs R src →
      ∃ T fks fk, (T, fks) ∈ src ∧ fk ∈ fks ∧ fk.REFERENCED_TABLE_NAME = R ∧
        rb = refEntry T fk
  | [], rb, h => by simp [collectRefs] at h
  | (T', fks') :: rest, rb, h => by
    rcases List.mem_append.mp h with h | h
    · rcases List.mem_filterMap.mp h with ⟨fk, hfk, hsome⟩
      by_cases hR : fk.REFERENCED_TABLE_NAME = R
      · rw [if_pos hR] at hsome
        injection hsome with hsome
        exact ⟨T', fks', fk, List.mem_cons_self _ _, hfk, hR, hsome.symm⟩
      · rw [if_neg hR] at hsome
        cases hsome
    · rcases collectRefs_mem_inv R rest rb h with ⟨T, fks, fk, hsrc, hfk, hR, hrb⟩
      exact ⟨T, fks, fk, List.mem_cons_of_mem _ hsrc, hfk, hR, hrb⟩

/-- Claim C6: in every successfully generated document (table names are
distinct, as `SHOW TABLES` reports), (a) every table's
`relationships.references` equals its `foreign_keys`; (b) for every foreign
key under table `T` referencing table `R`, if `R` is present in the
generated table set then `R`'s `relationships.referenced_by` contains the
corresponding `(table, column, constraint)` entry; and (c) every
`referenced_by` entry arises from such a foreign key — so foreign keys
referencing absent tables contribute nothing (they are silently dropped,
and generation still succeeds). -/
theorem relationship_symmetry (db : GenDb) (t0 : Nat) (doc : SchemaDoc)
    (hnd : ∀ ns, db.show_tables = .ok ns → ns.Nodup)
    (h : (generate_database_schema db t0).1 = .ok doc) :
    (∀ p ∈ doc.tables, p.2.references = p.2.foreign_keys) ∧
    (∀ p ∈ doc.tables, ∀ fk ∈ p.2.foreign_keys, ∀ re,
       dictLookup doc.tables fk.REFERENCED_TABLE_NAME = some re →
       refEntry p.1 fk ∈ re.referenced_by) ∧
    (∀ q ∈ doc.tables, ∀ rb ∈ q.2.referenced_by,
       ∃ p, p ∈ doc.tables ∧ ∃ fk, fk ∈ p.2.foreign_keys ∧
         fk.REFERENCED_TABLE_NAME = q.1 ∧ rb = refEntry p.1 fk) := by
  obtain ⟨hga, names, tbls, evs, t', hst, hlen, hbt, htab, htr⟩ :=
    generate_ok_parts db t0 doc h
  have hndn : names.Nodup := hnd names hst
  have hinv : ∀ p ∈ tbls, p.2.references = p.2.foreign_keys ∧ p.2.referenced_by = [] :=
    buildTables_entry_inv db names (t0 + 3) [] tbls
      (by intro p hp; simp at hp) (by rw [hbt])
  have hkeys : dictKeys tbls = names := by
    have h2 := buildTables_keys db names (t0 + 3) [] tbls (fun n _ => rfl) hndn (by rw [hbt])
    simpa [dictKeys] using h2
  have hknd : (dictKeys tbls).Nodup := by
    rw [hkeys]
    exact hndn
  have hcorr : ∀ p ∈ doc.tables, ∃ e, dictLookup tbls p.1 = some e ∧
      (p.1, e) ∈ tbls ∧
      p.2 = { e with referenced_by := e.referenced_by ++ collectRefs p.1 (srcOf tbls) } := by
    intro p hp
    have hndd : (dictKeys doc.tables).Nodup := by
      rw [htab, dictKeys_secondPass, hkeys]
      exact hndn
    have hlk : dictLookup doc.tables p.1 = some p.2 :=
      dictLookup_of_mem_nodup doc.tables p.1 p.2 hndd hp
    rw [htab, dictLookup_secondPass] at hlk
    rcases Option.map_eq_some'.mp hlk with ⟨e, he, hfe⟩
    exact ⟨e, he, mem_of_dictLookup_eq_some tbls p.1 e he, hfe.symm⟩
  refine ⟨?_, ?_, ?_⟩
  · intro p hp
    obtain ⟨e, he, hem, hpe⟩ := hcorr p hp
    rw [hpe]
    exact (hinv (p.1, e) hem).1
  · intro p hp fk hfk re hre
    obtain ⟨e, he, hem, hpe⟩ := hcorr p hp
    have hfk' : fk ∈ e.foreign_keys := by
      rw [hpe] at hfk
      exact hfk
    rw [htab, dictLookup_secondPass] at hre
    rcases Option.map_eq_some'.mp hre with ⟨e2, he2, hfe2⟩
    have hrb0 : e2.referenced_by = [] :=
      (hinv (fk.REFERENCED_TABLE_NAME, e2) (mem_of_dictLookup_eq_some _ _ _ he2)).2
    rw [← hfe2]
    show refEntry p.1 fk ∈ e2.referenced_by ++
      collectRefs fk.REFERENCED_TABLE_NAME (srcOf tbls)
    rw [hrb0, List.nil_append]
    refine mem_collectRefs_of fk.REFERENCED_TABLE_NAME (srcOf tbls) p.1 e.foreign_keys fk
      ?_ hfk' rfl
    exact List.mem_map.mpr ⟨(p.1, e), hem, rfl⟩
  · intro q hq rb hrb
    obtain ⟨e, he, hem, hqe⟩ := hcorr q hq
    have hrb0 : e.referenced_by = [] := (hinv (q.1, e) hem).2
    have hrb' : rb ∈ collectRefs q.1 (srcOf tbls) := by
      have hmem : rb ∈ e.referenced_by ++ collectRefs q.1 (srcOf tbls) := by
        rw [hqe] at hrb
        exact hrb
      rw [hrb0, List.nil_append] at hmem
      exact hmem
    obtain ⟨T, fks, fk, hsrc, hfk, hR, hrbeq⟩ :=
      collectRefs_mem_inv q.1 (srcOf tbls) rb hrb'
    have hsrc' : (T, fks) ∈ tbls.map (fun p => (p.1, p.2.foreign_keys)) := hsrc
    rcases List.mem_map.mp hsrc' with ⟨⟨T', eT⟩, hmemT, hTeq⟩
    injection hTeq with hT1 hT2
    subst hT1
    subst hT2
    have hlkT : dictLookup tbls T' = some eT := dictLookup_of_mem_nodup tbls T' eT hknd hmemT
    have hlkDocT : dictLookup doc.tables T' =
        some { eT with referenced_by := eT.referenced_by ++ collectRefs T' (srcOf tbls) } := by
      rw [htab, dictLookup_secondPass, hlkT]
      rfl
    exact ⟨(T', { eT with referenced_by := eT.referenced_by ++ collectRefs T' (srcOf tbls) }),
      mem_of_dictLookup_eq_some _ _ _ hlkDocT, fk, hfk, hR, hrbeq⟩

theorem relationship_symmetry_witness :
    (generate_database_schema dbTwo 0).1 = .ok dC6doc ∧
    (("orders", ordersEntryC6) ∈ dC6doc.tables) ∧
    (fkOrdersUsers ∈ ordersEntryC6.foreign_keys) ∧
    dictLookup dC6doc.tables "users" = some usersEntryC6 ∧
    refEntry "orders" fkOrdersUsers ∈ usersEntryC6.referenced_by :=
  ⟨rfl,
   List.Mem.tail _ (List.Mem.head _),
   List.Mem.head _,
   rfl,
   (relationship_symmetry dbTwo 0 dC6doc
      (by
        intro ns hs
        injection hs with hs'
        rw [← hs']
        decide)
      rfl).2.1
     ("orders", ordersEntryC6) (List.Mem.tail _ (List.Mem.head _))
     fkOrdersUsers (List.Mem.head _) usersEntryC6 rfl⟩

/-! ## Query-cache behaviour

`query_with_cache` keys the cache by
`create_hash (finalQuery ++ ":" ++ str(limit))`; a repeat of an identical
call inside the TTL window returns the cached serialization without a
second collaborator invocation.  Whether two *different* `(query, limit)`
pairs can alias one cache slot is exactly the collision behaviour of MD5 on
the two key strings; the embedded MD5 is evaluated on concrete inputs
below. -/

theorem qlookup_append_keyed (now' : Nat) (k v : String) (t : Nat) :
    ∀ (l : List QEntry), (∀ e ∈ l, (e.key == k) = false) →
      now' < t + QUERY_CACHE_TTL →
      qlookup now' (l ++ [{ key := k, value := v, insertedAt := t }]) k = some v
  | [], _, ht => by simp [qlookup, ht]
  | e :: rest, hl, ht => by
    have he : (e.key == k) = false := hl e (List.mem_cons_self _ _)
    simp only [List.cons_append, qlookup, he, Bool.false_and, if_false]
    exact qlookup_append_keyed now' k v t rest
      (fun e' he' => hl e' (List.mem_cons_of_mem _ he')) ht

theorem qlookup_qset_self (now now' : Nat) (c : List QEntry) (k v : String)
    (h : now' < now + QUERY_CACHE_TTL) :
    qlookup now' (qset now c k v) k = some v := by
  simp only [qset]
  refine qlookup_append_keyed now' k v now _ ?_ h
  intro e he
  have he2 : e ∈ (c.filter fun e => decide (now < e.insertedAt + QUERY_CACHE_TTL)).filter
      (fun e => e.key != k) := by
    by_cases hlen : ((c.filter fun e => decide (now < e.insertedAt + QUERY_CACHE_TTL)).filter
        (fun e => e.key != k)).length ≥ QUERY_CACHE_SIZE
    · rw [if_pos hlen] at he
      exact List.drop_subset _ _ he
    · rw [if_neg hlen] at he
      exact he
  have h3 := (List.mem_filter.mp he2).2
  simpa [bne] using h3

theorem query_cache_hit_on_repeat (w : World) (now now' : Nat) (st : CState)
    (query : String) (limit : Int) (v : String)
    (hok : (query_with_cache w now st query limit).2.1 = .ok v)
    (hexec : (query_with_cache w now st query limit).2.2 ≠ [])
    (httl : now' < now + QUERY_CACHE_TTL) :
    (query_with_cache w now'
        ((query_with_cache w now st query limit).1) query limit).2.1 = .ok v ∧
    (query_with_cache w now'
        ((query_with_cache w now st query limit).1) query limit).2.2 = [] := by
  by_cases h0 : pyStrip query = ""
  · simp [query_with_cache, h0] at hok
  · by_cases h1 : pyStartsWith (pyStrip (pyUpper query)) "SELECT" = true
    · rcases hq : qlookup now st.qcache
          (create_hash (withLimit query limit ++ ":" ++ toString limit)) with _ | c
      · rcases he : w.execute (withLimit query limit) with e | rows
        · simp [query_with_cache, h0, h1, hq, he] at hok
        · have hv : v = Json.dump (Json.arr rows) := by
            have := hok
            simp [query_with_cache, h0, h1, hq, he] at this
            exact this.symm
          have hhit : qlookup now'
              (qset now st.qcache
                (create_hash (withLimit query limit ++ ":" ++ toString limit))
                (Json.dump (Json.arr rows)))
              (create_hash (withLimit query limit ++ ":" ++ toString limit)) =
              some (Json.dump (Json.arr rows)) :=
            qlookup_qset_self now now' st.qcache _ _ httl
          constructor <;>
            simp [query_with_cache, h0, h1, hq, he, hhit, hv]
      · simp [query_with_cache, h0, h1, hq] at hexec
    · simp [query_with_cache, h0, Bool.eq_false_iff.mpr h1] at hok

/-- On a cache miss with successful execution, the stored cache entry is
keyed by `create_hash(finalQuery ++ ":" ++ limit)` and holds the serialized
rows. -/
theorem query_cache_key_spec (w : World) (now : Nat) (st : CState)
    (query : String) (limit : Int) (rows : List Json)
    (h0 : ¬ pyStrip query = "")
    (h1 : pyStartsWith (pyStrip (pyUpper query)) "SELECT" = true)
    (hq : qlookup now st.qcache
      (create_hash (withLimit query limit ++ ":" ++ toString limit)) = none)
    (he : w.execute (withLimit query limit) = .ok rows) :
    (query_with_cache w now st query limit).1.qcache =
      qset now st.qcache (create_hash (withLimit query limit ++ ":" ++ toString limit))
        (Json.dump (Json.arr rows)) := by
  simp [query_with_cache, h0, h1, hq, he]

/-- The spec's example pair: same query text, limits 10 and 20 — the two
cache keys (MD5 digests of the two key strings) are distinct. -/
theorem cache_key_distinct_example :
    create_hash (withLimit "SELECT * FROM t" 10 ++ ":" ++ toString (10 : Int)) ≠
      create_hash (withLimit "SELECT * FROM t" 20 ++ ":" ++ toString (20 : Int)) := by
  decide

end MySqlMcp
